import Mathlib

/-!
Verification development for the QD-RNAseq wrapper: a shallow embedding of the
sample-selection, dispatch and state-recording logic of `src/wrapper.py`,
`src/runner.py`, `src/tools/helpers.py` and `src/tools/slims.py`, together
with theorems settling the specified properties of the orchestrator.
-/

namespace QdWrap

/-- Decidable equality on `Except`, used to settle concrete evaluations of the
fallible functions below. -/
instance {ε α : Type} [DecidableEq ε] [DecidableEq α] : DecidableEq (Except ε α) := fun a b =>
  match a, b with
  | .ok x, .ok y =>
    if h : x = y then isTrue (congrArg Except.ok h)
    else isFalse (fun hc => h (Except.ok.inj hc))
  | .ok _, .error _ => isFalse (fun hc => Except.noConfusion hc)
  | .error _, .ok _ => isFalse (fun hc => Except.noConfusion hc)
  | .error x, .error y =>
    if h : x = y then isTrue (congrArg Except.error h)
    else isFalse (fun hc => h (Except.error.inj hc))

/-- A fastq Content record (SLIMS content type 22) as the wrapper uses it:
primary key, the `cntn_cstm_doNotInclude` and `cntn_cstm_noBioinformaticsObjects`
flags, the `cntn_cstm_runTag` value, and the demuxer result
(`cntn_cstm_demuxerSampleResult` JSON, reduced to its `fastq_paths` list and
`total_reads` count; `none` models a falsy JSON value). -/
structure FastqRec where
  pk : Nat
  doNotInclude : Bool
  noBioObjects : Bool
  runTag : String
  demuxer : Option (List String × Nat)
deriving DecidableEq

/-- A bioinformatics Content record (SLIMS content type 23): primary key,
`cntn_fk_originalContent`, the `cntn_cstm_secondaryAnalysis` key list,
`cntn_cstm_SecondaryAnalysisState` and `cntn_cstm_runTag`.  The constant
fields set by `SlimsSample.add_bioinformatics` (`cntn_id`, content type 23,
PENDING status, location, user) are not modelled. -/
structure BioRec where
  pk : Nat
  originalContent : Nat
  secAnalysis : List Nat
  state : String
  runTag : String
deriving DecidableEq

/-- One sample as seen through `SlimsSample` (src/tools/slims.py:19): its
`cntn_id` and the lazily fetched fastq and bioinformatics record lists. -/
structure SampleData where
  cntn_id : String
  fastqs : List FastqRec
  bioinformatics : List BioRec
deriving DecidableEq

/-- The inputs of one orchestrator pass: the raw lines of the
`previously_analysed` file named in the config, the set of file paths that
exist on disk, and the samples returned by
`slims_records_from_sec_analysis 186`. -/
structure PassEnv where
  previously_analysed_lines : List String
  disk : List String
  samples : List SampleData
deriving DecidableEq

/-- Python `str.rstrip()`: drop trailing whitespace. -/
def rstrip (s : String) : String :=
  ⟨(s.toList.reverse.dropWhile Char.isWhitespace).reverse⟩

/-- `read_previous_samples_file` (src/tools/helpers.py:441): read the
`previously_analysed` file and return `[line.rstrip() for line in prev]`.
The file is modelled by its list of raw lines. -/
def read_previous_samples_file (lines : List String) : List String :=
  lines.map rstrip

/-- Errors escaping `find_fastq_paths` (src/tools/slims.py:156).  The names
`MissingDemuxerInfoError` and `MissingFastqError` raised there are nowhere
defined in the repository (and the first message references an undefined
`sample_name`), so at runtime a `NameError` escapes instead; either way an
exception propagates out of the function, which is what these values model. -/
inductive FindFastqError where
  | missingDemuxerInfo : FindFastqError
  | missingFastq : String → FindFastqError
deriving DecidableEq

/-- First path of `paths` that is not on disk, if any (the loop at
src/tools/slims.py:177 raises at the first nonexistent path). -/
def firstMissingPath (disk : List String) : List String → Option String
  | [] => none
  | p :: ps => if p ∈ disk then firstMissingPath disk ps else some p

/-- `find_fastq_paths` (src/tools/slims.py:156): for each fastq record that is
not `doNotInclude`, read the demuxer JSON (falsy JSON raises), check every
fastq path exists on disk (raising at the first missing one), and collect the
`(total_reads, fastq_paths)` pairs in record order. -/
def find_fastq_paths (disk : List String) : List FastqRec → Except FindFastqError (List (Nat × List String))
  | [] => .ok []
  | fq :: rest =>
    if fq.doNotInclude then find_fastq_paths disk rest
    else
      match fq.demuxer with
      | none => .error .missingDemuxerInfo
      | some (paths, reads) =>
        match firstMissingPath disk paths with
        | some p => .error (.missingFastq p)
        | none =>
          match find_fastq_paths disk rest with
          | .error e => .error e
          | .ok pairs => .ok ((reads, paths) :: pairs)

/-- `find_derived_bioinfo_objects` (src/tools/slims.py:274): the
bioinformatics records attached to `original_content_pk` carrying the given
secondary-analysis key.  More than one is an exception; none is the Python
value `False`, modelled as `none`; one is returned.  The exception message is
abbreviated (the original interpolates the primary key). -/
def find_derived_bioinfo_objects (bioinformatics_records : List BioRec)
    (original_content_pk : Nat) (secondaryAnalysis : Nat) : Except String (Option BioRec) :=
  let attached := bioinformatics_records.filter
    (fun b => b.originalContent == original_content_pk && b.secAnalysis.contains secondaryAnalysis)
  match attached with
  | [] => .ok none
  | [b] => .ok (some b)
  | _ => .error "Content has more than one bioinformatics object attached"

/-- What `rnaseq_samples[uniq]['bioinformatics']` holds.  The update branch
(src/wrapper.py:152) stores the single updated record, but the creation branch
(src/wrapper.py:147) stores the value of `SlimsSample.add_bioinformatics`,
which returns the sample's whole `_bioinformatics` list
(src/tools/slims.py:77-79), not the new record. -/
inductive BioStored where
  | single : BioRec → BioStored
  | wholeList : List BioRec → BioStored
deriving DecidableEq

/-- One value of the `rnaseq_samples` defaultdict: the stored bioinformatics
handle and the stored fastq path list, each `none` until assigned. -/
structure Entry where
  bioinformatics : Option BioStored
  fastq : Option (List (Nat × List String))
deriving DecidableEq

/-- How a claim on the Tracked State happened: a fresh bioinformatics record
created with state `running` (src/wrapper.py:140-148), or an existing `novel`
record updated to `running` (src/wrapper.py:151-153). -/
inductive ClaimKind where
  | created : ClaimKind
  | updatedExisting : ClaimKind
deriving DecidableEq

/-- One claim event: a bioinformatics record for composite key `key`
(`sample_uniqID`) was set to state `running`. -/
structure ClaimEvent where
  key : String
  kind : ClaimKind
deriving DecidableEq

/-- Python-dict update `d[k].field = v` on a `defaultdict(dict)`: if `k` is
present its entry is updated in place by `f`; otherwise `(k, init)` is
appended at the end (Python dicts preserve insertion order). -/
def dictUpd (f : Entry → Entry) (dflt : Entry) : List (String × Entry) → String → List (String × Entry)
  | [], k => [(k, dflt)]
  | (k0, e0) :: rest, k =>
    if k0 = k then (k0, f e0) :: rest else (k0, e0) :: dictUpd f dflt rest k

/-- `rnaseq_samples[uniq]['bioinformatics'] = b`. -/
def dictSetBio (d : List (String × Entry)) (k : String) (b : BioStored) : List (String × Entry) :=
  dictUpd (fun e => ⟨some b, e.fastq⟩) ⟨some b, none⟩ d k

/-- `rnaseq_samples[uniq]['fastq'] = p`. -/
def dictSetFastq (d : List (String × Entry)) (k : String) (p : List (Nat × List String)) :
    List (String × Entry) :=
  dictUpd (fun e => ⟨e.bioinformatics, some p⟩) ⟨none, some p⟩ d k

/-- State threaded through the selection loop of `main`
(src/wrapper.py:112-160): the `rnaseq_samples` dict, the claim events
performed on SLIMS so far, the messages passed to `logger.error`, and a
counter supplying the server-assigned primary keys of created records. -/
structure SelState where
  dict : List (String × Entry)
  claims : List ClaimEvent
  errorsLogged : List String
  nextPk : Nat
deriving DecidableEq

/-- The body of the inner `for fastq in slimsinfo.fastqs` loop
(src/wrapper.py:119-160) for one fastq record: skip excluded fastqs, look up
the derived bioinformatics object (logging and continuing on an exception),
then either create a `running` record, update a `novel` record to `running`,
or skip; in the two claiming branches finally store
`find_fastq_paths(slimsinfo.fastqs)` for the composite key, any exception of
which escapes the whole pass.  `bioList` is the sample's `_bioinformatics`
list, to which `add_bioinformatics` appends. -/
def process_fastq (disk : List String) (sid : String) (allFastqs : List FastqRec)
    (st : SelState) (bioList : List BioRec) (fq : FastqRec) :
    Except FindFastqError (SelState × List BioRec) :=
  if fq.doNotInclude then .ok (st, bioList)
  else if fq.noBioObjects then .ok (st, bioList)
  else
    let runtag := fq.runTag
    let uniq := sid ++ "_" ++ runtag
    match find_derived_bioinfo_objects bioList fq.pk 186 with
    | .error e => .ok (⟨st.dict, st.claims, st.errorsLogged ++ [e], st.nextPk⟩, bioList)
    | .ok none =>
      let newRec : BioRec := ⟨st.nextPk, fq.pk, [186], "running", runtag⟩
      let bioList' := bioList ++ [newRec]
      match find_fastq_paths disk allFastqs with
      | .error e => .error e
      | .ok paths =>
        .ok (⟨dictSetFastq (dictSetBio st.dict uniq (.wholeList bioList')) uniq paths,
              st.claims ++ [⟨uniq, .created⟩], st.errorsLogged, st.nextPk + 1⟩, bioList')
    | .ok (some derived) =>
      if derived.state = "novel" then
        let upd : BioRec := ⟨derived.pk, derived.originalContent, derived.secAnalysis,
                             "running", derived.runTag⟩
        match find_fastq_paths disk allFastqs with
        | .error e => .error e
        | .ok paths =>
          .ok (⟨dictSetFastq (dictSetBio st.dict uniq (.single upd)) uniq paths,
                st.claims ++ [⟨uniq, .updatedExisting⟩], st.errorsLogged, st.nextPk⟩, bioList)
      else .ok (st, bioList)

/-- The inner loop over one sample's fastq records. -/
def process_fastq_list (disk : List String) (sid : String) (allFastqs : List FastqRec) :
    SelState → List BioRec → List FastqRec → Except FindFastqError SelState
  | st, _, [] => .ok st
  | st, bl, fq :: rest =>
    match process_fastq disk sid allFastqs st bl fq with
    | .error e => .error e
    | .ok (st', bl') => process_fastq_list disk sid allFastqs st' bl' rest

/-- One iteration of the outer `for sample in all_rnaseq_samples` loop
(src/wrapper.py:113-160): a sample with no fastq records is skipped silently
(src/wrapper.py:116-117); otherwise its fastq records are processed. -/
def process_sample (disk : List String) (st : SelState) (s : SampleData) :
    Except FindFastqError SelState :=
  if s.fastqs = [] then .ok st
  else process_fastq_list disk s.cntn_id s.fastqs st s.bioinformatics s.fastqs

/-- The outer selection loop over all samples; an exception escaping an
iteration aborts the whole pass. -/
def process_samples (disk : List String) : SelState → List SampleData → Except FindFastqError SelState
  | st, [] => .ok st
  | st, s :: rest =>
    match process_sample disk st s with
    | .error e => .error e
    | .ok st' => process_samples disk st' rest

/-- The Eligibility Selector of one pass (src/wrapper.py:104-165).  Note that
`env.previously_analysed_lines` is an input of the pass (the file named by the
config) but `main` never calls `read_previous_samples_file`, so the selection
does not depend on it. -/
def select_candidates (env : PassEnv) : Except FindFastqError SelState :=
  process_samples env.disk ⟨[], [], [], 0⟩ env.samples

/-- The composite keys of the dispatch set produced by a selection result. -/
def selectedKeys (r : Except FindFastqError SelState) : List String :=
  match r with
  | .error _ => []
  | .ok st => st.dict.map Prod.fst

/-- The composite keys whose Tracked State was claimed (set to `running`)
during a selection result. -/
def claimedKeys (r : Except FindFastqError SelState) : List String :=
  match r with
  | .error _ => []
  | .ok st => st.claims.map ClaimEvent.key

/-- Numeric value of a decimal digit character. -/
def digitVal (c : Char) : Nat := c.toNat - 48

/-- CPython `strptime` pivot for the two-digit year directive: 0-68 maps into
2000-2068 and 69-99 into 1969-1999. -/
def pivotYear (yy : Nat) : Nat := if yy ≤ 68 then 2000 + yy else 1900 + yy

/-- Gregorian leap-year rule, as the `datetime` module uses it. -/
def isLeap (y : Nat) : Bool := y % 4 == 0 && (y % 100 != 0 || y % 400 == 0)

/-- Days in month `m` of year `y`. -/
def daysInMonth (y m : Nat) : Nat :=
  if m = 2 then (if isLeap y then 29 else 28)
  else if m = 4 ∨ m = 6 ∨ m = 9 ∨ m = 11 then 30
  else 31

/-- `datetime.strptime(s, "%y%m%d")` on a six-character digit string, reduced
to a chronologically ordered key `year * 10000 + month * 100 + day` (the only
use made of the parsed datetime is comparison).  Invalid month or day raises a
`ValueError`, modelled as `none`.  Shorter digit strings that CPython's
regex-based `strptime` would also accept are outside the YYMMDD run-tag
format and not modelled. -/
def parse_yymmdd (s : String) : Option Nat :=
  match s.toList with
  | [y1, y2, m1, m2, d1, d2] =>
    if y1.isDigit ∧ y2.isDigit ∧ m1.isDigit ∧ m2.isDigit ∧ d1.isDigit ∧ d2.isDigit then
      let y := pivotYear (10 * digitVal y1 + digitVal y2)
      let m := 10 * digitVal m1 + digitVal m2
      let d := 10 * digitVal d1 + digitVal d2
      if 1 ≤ m ∧ m ≤ 12 ∧ 1 ≤ d ∧ d ≤ daysInMonth y m then
        some (y * 10000 + m * 100 + d)
      else none
    else none
  | _ => none

/-- `runtag.split('_')[0]`: the part of the tag before the first underscore. -/
def runtagDatePart (runtag : String) : String :=
  ⟨runtag.toList.takeWhile (fun c => c ≠ '_')⟩

/-- The encoded date of a run tag, `strptime(runtag.split('_')[0], "%y%m%d")`
(src/tools/slims.py:203-204). -/
def runtag_date (runtag : String) : Option Nat :=
  parse_yymmdd (runtagDatePart runtag)

/-- The `for runtag in runtag_list` loop of `find_runtag_from_fastqs`
(src/tools/slims.py:202-211) followed by the final check
(src/tools/slims.py:213-216): parse each tag's date (a `ValueError` escapes on
an unparsable tag), keep the running newest, replacing it only on a strictly
more recent date; an empty list is an exception. -/
def runtag_fold : List String → Option String → Except String String
  | [], none => .error "No run tag found in fastq objects"
  | [], some newest => .ok newest
  | runtag :: rest, acc =>
    match runtag_date runtag with
    | none => .error "time data does not match format yymmdd"
    | some dt =>
      match acc with
      | none => runtag_fold rest (some runtag)
      | some newest =>
        match runtag_date newest with
        | none => .error "time data does not match format yymmdd"
        | some dn => if dn < dt then runtag_fold rest (some runtag) else runtag_fold rest (some newest)

/-- `find_runtag_from_fastqs` (src/tools/slims.py:184): collect
`cntn_cstm_runTag` of every fastq object and fold for the newest. -/
def find_runtag_from_fastqs (fastq_objects : List FastqRec) : Except String String :=
  runtag_fold (fastq_objects.map FastqRec.runTag) none

/-- One sample as handed to `start_runner_processes` (src/wrapper.py:24) and
executed by `qd_start` (src/runner.py:92): the `sample_dict` key (the
composite `sample_uniqID`), the handle stored under `'bioinformatics'` by the
selection loop — a single record for an update-claimed sample
(src/wrapper.py:152) but the whole `_bioinformatics` list for a
create-claimed one (src/wrapper.py:147, src/tools/slims.py:77-79) — the exit
codes the sample's external pipeline processes will return, and whether
`qd_start` raises an exception in one of its other stages (config reading,
samplesheet handling, report copying).  Exit codes cannot cause an exception:
`start_pipe_threads` runs each pipeline with `subprocess.call(args)` and
discards the returned code (src/tools/helpers.py:318-319). -/
structure DispatchedSample where
  sid : String
  bioinfo : BioStored
  exitCodes : List Int
  auxError : Bool
deriving DecidableEq

/-- Whether the runner process for this sample raises (the only way
`f.result()` at src/wrapper.py:57 raises): exit codes of the external
pipelines are never inspected, so only the auxiliary stages matter. -/
def runner_raises (s : DispatchedSample) : Bool := s.auxError

/-- `update_bioinformatics_record` (src/tools/slims.py:302-313) as the
recording loop invokes it: it calls `bioinformatics_record.update(fields)`
with the new state.  A single SLIMS Record has an `update` method and the
server returns the updated record; the whole-list handle stored by the
create branch is a plain Python list with no `update` attribute, so the call
raises an AttributeError before any server write happens. -/
def update_bioinformatics_record (bioinformatics_record : BioStored) (state : String) :
    Except String BioRec :=
  match bioinformatics_record with
  | .single r => .ok ⟨r.pk, r.originalContent, r.secAnalysis, state, r.runTag⟩
  | .wholeList _ => .error "AttributeError: list has no attribute update"

/-- Observations of the `as_completed` recording loop (src/wrapper.py:51-73):
the `completed` and `failed` id lists and the SLIMS state writes performed
via `update_bioinformatics_record`, in order. -/
structure RecorderResult where
  completed : List String
  failed : List String
  writes : List (Nat × String)
deriving DecidableEq

/-- Outcome of the recording loop: either it consumed every future and
finished with the collected result, or the `update_bioinformatics_record`
call for the named sample raised (the `try` at src/wrapper.py:56-58 wraps
only `f.result()`, so the AttributeError at src/wrapper.py:60/67 escapes and
aborts the loop).  In the crashed case the partial result holds the SLIMS
writes performed before the abort and the ids recorded before it (the Python
locals are lost with the exception, but those server writes persist); the
futures not yet yielded by `as_completed` are never consumed. -/
inductive RecorderOutcome where
  | finished : RecorderResult → RecorderOutcome
  | crashed : String → RecorderResult → RecorderOutcome
deriving DecidableEq

/-- The recording loop body, folded over the futures in completion order: a
raising runner is recorded `failed`, a returning one `complete`
(src/wrapper.py:56-71); in either branch the state write happens first and
its AttributeError aborts the loop before the id is appended. -/
def start_runner_processes_fold : RecorderResult → List DispatchedSample → RecorderOutcome
  | acc, [] => .finished acc
  | acc, s :: rest =>
    if runner_raises s then
      match update_bioinformatics_record s.bioinfo "failed" with
      | .error _ => .crashed s.sid acc
      | .ok r =>
        start_runner_processes_fold
          ⟨acc.completed, acc.failed ++ [s.sid], acc.writes ++ [(r.pk, "failed")]⟩ rest
    else
      match update_bioinformatics_record s.bioinfo "complete" with
      | .error _ => .crashed s.sid acc
      | .ok r =>
        start_runner_processes_fold
          ⟨acc.completed ++ [s.sid], acc.failed, acc.writes ++ [(r.pk, "complete")]⟩ rest

/-- `start_runner_processes` (src/wrapper.py:24-73), recording part:
`as_completed` yields every submitted future exactly once, in an arbitrary
completion order; `completionOrder` is the submitted samples in that order.
The submission part (pool bound and stagger) is modelled separately by
`PoolStep` and `launchTimes` below. -/
def start_runner_processes (completionOrder : List DispatchedSample) : RecorderOutcome :=
  start_runner_processes_fold ⟨[], [], []⟩ completionOrder

/-- The ids the recording loop marked completed (partial up to a crash). -/
def recCompleted : RecorderOutcome → List String
  | .finished r => r.completed
  | .crashed _ r => r.completed

/-- The ids the recording loop marked failed (partial up to a crash). -/
def recFailed : RecorderOutcome → List String
  | .finished r => r.failed
  | .crashed _ r => r.failed

/-- The SLIMS state writes the recording loop performed (partial up to a
crash). -/
def recWrites : RecorderOutcome → List (Nat × String)
  | .finished r => r.writes
  | .crashed _ r => r.writes

/-- Whether the sample's stored bioinformatics handle is a single record
(the update-claim branch) rather than the create branch's whole list. -/
def handleIsRecord (s : DispatchedSample) : Bool :=
  match s.bioinfo with
  | .single _ => true
  | .wholeList _ => false

/-- Primary key of a single-record handle (unused default for the list
handle, whose recording write never reaches the server). -/
def storedPk (s : DispatchedSample) : Nat :=
  match s.bioinfo with
  | .single r => r.pk
  | .wholeList _ => 0

/-- The wrapper contains no statement appending to the `previously_analysed`
file: recording (src/wrapper.py:51-73) only updates SLIMS bioinformatics
records, so after a pass the ledger file holds exactly the lines it held
before. -/
def previously_analysed_after (lines : List String) (r : RecorderOutcome) : List String :=
  lines

/-- A state of the `ProcessPoolExecutor` worker pool (src/wrapper.py:36):
submitted-but-not-started jobs, currently executing jobs, and finished jobs,
each listed by sample id. -/
structure PoolState where
  pending : List String
  running : List String
  done : List String
deriving DecidableEq

/-- Transitions of a `ProcessPoolExecutor(max_workers = maxW)` run: a pending
job starts only when fewer than `maxW` jobs are executing (the executor keeps
at most `max_workers` worker processes), and an executing job may finish. -/
inductive PoolStep (maxW : Nat) : PoolState → PoolState → Prop
  | start (j : String) (pend run dn : List String) :
      run.length < maxW →
      PoolStep maxW ⟨j :: pend, run, dn⟩ ⟨pend, j :: run, dn⟩
  | finish (j : String) (pend run dn : List String) :
      j ∈ run →
      PoolStep maxW ⟨pend, run, dn⟩ ⟨pend, run.erase j, j :: dn⟩

/-- The pool before anything starts: all jobs pending. -/
def poolInit (jobs : List String) : PoolState := ⟨jobs, [], []⟩

/-- States a Dispatcher run with concurrency limit `maxW` can reach from the
initial submission of `jobs`. -/
def PoolReachable (maxW : Nat) (jobs : List String) (s : PoolState) : Prop :=
  Relation.ReflTransGen (PoolStep maxW) (poolInit jobs) s

/-- Submission time of the i-th job: the loop at src/wrapper.py:39-49 submits
a job and then sleeps `time_offset` seconds, so submissions are
`time_offset` apart (submission itself is instantaneous in the model). -/
def submitTime (offset i : Nat) : Nat := offset * i

/-- Remove one minimal element from a list, returning it and the rest. -/
def takeMin : List Nat → Option (Nat × List Nat)
  | [] => none
  | [a] => some (a, [])
  | a :: rest =>
    match takeMin rest with
    | none => some (a, [])
    | some (m, r) => if a ≤ m then some (a, rest) else some (m, a :: r)

/-- Launch times of the submitted jobs under `ProcessPoolExecutor` FIFO
semantics: job `i` (with duration `dur`) starts at the later of its
submission time and the earliest moment a worker becomes free; that worker is
then busy until the job's end.  `free` holds the times at which each of the
`max_workers` workers becomes free.  (The `none` branch is the degenerate
zero-worker pool, which `ProcessPoolExecutor` rejects.) -/
def launchTimesGo (offset : Nat) : Nat → List Nat → List Nat → List Nat
  | _, _, [] => []
  | i, free, dur :: durs =>
    match takeMin free with
    | none => submitTime offset i :: launchTimesGo offset (i + 1) [] durs
    | some (m, rest) =>
      let t := max (submitTime offset i) m
      t :: launchTimesGo offset (i + 1) ((t + dur) :: rest) durs

/-- Launch times of jobs with durations `durs` under stagger `offset` and
`maxW` worker slots, in submission order. -/
def launchTimes (offset maxW : Nat) (durs : List Nat) : List Nat :=
  launchTimesGo offset 0 (List.replicate maxW 0) durs

/-- Whether every pair of consecutive times in the list is at least `offset`
apart. -/
def gapsOK (offset : Nat) : List Nat → Bool
  | [] => true
  | [_] => true
  | a :: b :: rest => decide (a + offset ≤ b) && gapsOK offset (b :: rest)

/-- One thread of `start_pipe_threads` (src/tools/helpers.py:321-330): named
after its pipeline, carrying the command it runs. -/
structure PipeThread where
  name : String
  command : List String
deriving DecidableEq

/-- The join loop of `start_pipe_threads` (src/tools/helpers.py:337-340):
joining a thread blocks until that thread's finish time, but the traversal
follows the construction order of the `threads` list, appending each thread's
name after its join returns.  Returns the time the loop ends and the
collected names. -/
def joinThreads (finish : String → Nat) : Nat → List PipeThread → Nat × List String
  | now, [] => (now, [])
  | now, t :: rest =>
    let now' := max now (finish t.name)
    let res := joinThreads finish now' rest
    (res.1, t.name :: res.2)

/-- `start_pipe_threads` (src/tools/helpers.py:307-342): build one thread per
`pipe_dict` item (in dict insertion order), start them all, then join them in
that same order, collecting `finished_pipes`.  `finish` assigns each
pipeline's completion time; the exit code of the `subprocess.call` inside
each thread is discarded.  `sample_name` is used only for logging. -/
def start_pipe_threads (sample_name : String) (pipe_dict : List (String × List String))
    (finish : String → Nat) : List String :=
  (joinThreads finish 0 (pipe_dict.map (fun pc => ⟨pc.1, pc.2⟩))).2

/-! Helper lemmas. -/

/-- Unfolding `runtag_fold` over a cons with no current newest tag. -/
theorem runtag_fold_cons_none (t : String) (rest : List String) (dt : Nat)
    (hdt : runtag_date t = some dt) :
    runtag_fold (t :: rest) none = runtag_fold rest (some t) := by
  simp [runtag_fold, hdt]

/-- Unfolding `runtag_fold` over a cons with a current newest tag. -/
theorem runtag_fold_cons_some (t : String) (rest : List String) (newest : String)
    (dt dn : Nat) (hdt : runtag_date t = some dt) (hne : runtag_date newest = some dn) :
    runtag_fold (t :: rest) (some newest) =
      if dn < dt then runtag_fold rest (some t) else runtag_fold rest (some newest) := by
  simp [runtag_fold, hdt, hne]

/-- Invariant of the newest-tag fold: starting from a parseable current
newest tag, over a list of parseable tags the fold succeeds and returns a tag
that is the current one or a list element, whose date is at least the current
one's and at least every list element's. -/
theorem runtag_fold_spec (l : List String) :
    ∀ newest dn, runtag_date newest = some dn →
    (∀ t ∈ l, ∃ d, runtag_date t = some d) →
    ∃ r dr, runtag_fold l (some newest) = .ok r ∧ runtag_date r = some dr ∧ dn ≤ dr ∧
      (r = newest ∨ r ∈ l) ∧ ∀ t ∈ l, ∀ d, runtag_date t = some d → d ≤ dr := by
  induction l with
  | nil =>
    intro newest dn hne _
    exact ⟨newest, dn, rfl, hne, le_refl dn, Or.inl rfl, by simp⟩
  | cons t rest ih =>
    intro newest dn hne hall
    obtain ⟨dt, hdt⟩ := hall t (List.mem_cons_self t rest)
    have hrest : ∀ u ∈ rest, ∃ d, runtag_date u = some d :=
      fun u hu => hall u (List.mem_cons_of_mem t hu)
    rw [runtag_fold_cons_some t rest newest dt dn hdt hne]
    by_cases hlt : dn < dt
    · obtain ⟨r, dr, hok, hrd, hdtr, hmem, hbnd⟩ := ih t dt hdt hrest
      rw [if_pos hlt]
      refine ⟨r, dr, hok, hrd, le_of_lt (lt_of_lt_of_le hlt hdtr), ?_, ?_⟩
      · rcases hmem with rfl | hm
        · exact Or.inr (List.mem_cons_self r rest)
        · exact Or.inr (List.mem_cons_of_mem t hm)
      · intro u hu d hd
        rcases List.mem_cons.mp hu with rfl | hm
        · rw [hdt] at hd
          injection hd with hdd
          omega
        · exact hbnd u hm d hd
    · obtain ⟨r, dr, hok, hrd, hdnr, hmem, hbnd⟩ := ih newest dn hne hrest
      rw [if_neg hlt]
      refine ⟨r, dr, hok, hrd, hdnr, ?_, ?_⟩
      · rcases hmem with rfl | hm
        · exact Or.inl rfl
        · exact Or.inr (List.mem_cons_of_mem t hm)
      · intro u hu d hd
        rcases List.mem_cons.mp hu with rfl | hm
        · rw [hdt] at hd
          injection hd with hdd
          omega
        · exact hbnd u hm d hd

/-- When every sample's stored handle is a single record, the recording loop
finishes, collecting the non-raising ids as completed, the raising ids as
failed, and one terminal write per sample, in completion order. -/
theorem srp_fold_all_records (l : List DispatchedSample) :
    ∀ acc, (∀ u ∈ l, handleIsRecord u = true) →
      start_runner_processes_fold acc l = .finished
        ⟨acc.completed ++ (l.filter (fun u => !runner_raises u)).map DispatchedSample.sid,
         acc.failed ++ (l.filter (fun u => runner_raises u)).map DispatchedSample.sid,
         acc.writes ++ l.map (fun u => (storedPk u, if runner_raises u then "failed" else "complete"))⟩ := by
  induction l with
  | nil => intro acc _; simp [start_runner_processes_fold]
  | cons s rest ih =>
    intro acc hall
    have hs := hall s (List.mem_cons_self s rest)
    have hrest : ∀ u ∈ rest, handleIsRecord u = true :=
      fun u hu => hall u (List.mem_cons_of_mem s hu)
    cases hb : s.bioinfo with
    | wholeList bl => simp [handleIsRecord, hb] at hs
    | single r =>
      cases hra : runner_raises s <;>
        simp [start_runner_processes_fold, hra, update_bioinformatics_record, hb,
              ih _ hrest, List.filter_cons, storedPk]

/-- A sample whose stored handle is the create branch's whole list crashes
the recording loop at its own recording step, whatever comes after it and
whether or not its runner raised: the AttributeError escapes before the id is
appended, and the remaining futures are never consumed. -/
theorem srp_fold_crash_head (sid : String) (bl : List BioRec) (codes : List Int)
    (aux : Bool) (rest : List DispatchedSample) (acc : RecorderResult) :
    start_runner_processes_fold acc (⟨sid, .wholeList bl, codes, aux⟩ :: rest) =
      .crashed sid acc := by
  cases aux <;>
    simp [start_runner_processes_fold, runner_raises, update_bioinformatics_record]

/-- Every SLIMS write the recording loop ever performs — crash or not — is
either inherited from the accumulator or a terminal-state write. -/
theorem srp_fold_writes_terminal (l : List DispatchedSample) :
    ∀ acc, ∀ w ∈ recWrites (start_runner_processes_fold acc l),
      w ∈ acc.writes ∨ w.2 = "complete" ∨ w.2 = "failed" := by
  induction l with
  | nil =>
    intro acc w hw
    exact Or.inl hw
  | cons s rest ih =>
    intro acc w hw
    cases hra : runner_raises s
    · cases hu : update_bioinformatics_record s.bioinfo "complete" with
      | error e =>
        simp only [start_runner_processes_fold, hra, hu, Bool.false_eq_true,
          if_false, recWrites] at hw
        exact Or.inl hw
      | ok r =>
        simp only [start_runner_processes_fold, hra, Bool.false_eq_true, if_false, hu] at hw
        rcases ih _ w hw with hin | hterm
        · rcases List.mem_append.mp hin with h1 | h2
          · exact Or.inl h1
          · simp only [List.mem_singleton] at h2
            subst h2
            exact Or.inr (Or.inl rfl)
        · exact Or.inr hterm
    · cases hu : update_bioinformatics_record s.bioinfo "failed" with
      | error e =>
        simp only [start_runner_processes_fold, hra, if_true, hu, recWrites] at hw
        exact Or.inl hw
      | ok r =>
        simp only [start_runner_processes_fold, hra, if_true, hu] at hw
        rcases ih _ w hw with hin | hterm
        · rcases List.mem_append.mp hin with h1 | h2
          · exact Or.inl h1
          · simp only [List.mem_singleton] at h2
            subst h2
            exact Or.inr (Or.inr rfl)
        · exact Or.inr hterm

/-- The keys of the `rnaseq_samples` dict. -/
def dictKeys (d : List (String × Entry)) : List String := d.map Prod.fst

/-- A key of an updated dict is an old key or the updated key. -/
theorem dictKeys_dictUpd_mem {x k : String} (f : Entry → Entry) (dflt : Entry) :
    ∀ d : List (String × Entry), x ∈ dictKeys (dictUpd f dflt d k) → x ∈ dictKeys d ∨ x = k := by
  intro d
  induction d with
  | nil =>
    intro hx
    right
    simpa [dictUpd, dictKeys] using hx
  | cons hd tl ih =>
    obtain ⟨k0, e0⟩ := hd
    intro hx
    simp only [dictUpd] at hx
    by_cases hk : k0 = k
    · rw [if_pos hk] at hx
      simp only [dictKeys, List.map_cons, List.mem_cons] at hx ⊢
      tauto
    · rw [if_neg hk] at hx
      simp only [dictKeys, List.map_cons, List.mem_cons] at hx ⊢
      rcases hx with rfl | hx
      · exact Or.inl (Or.inl rfl)
      · rcases ih hx with h | h
        · exact Or.inl (Or.inr h)
        · exact Or.inr h

/-- The dict update keeps the keys duplicate-free. -/
theorem dictKeys_dictUpd_nodup (f : Entry → Entry) (dflt : Entry) :
    ∀ (d : List (String × Entry)) (k : String),
      (dictKeys d).Nodup → (dictKeys (dictUpd f dflt d k)).Nodup := by
  intro d
  induction d with
  | nil => intro k _; simp [dictUpd, dictKeys]
  | cons hd tl ih =>
    obtain ⟨k0, e0⟩ := hd
    intro k hnd
    simp only [dictKeys, List.map_cons, List.nodup_cons] at hnd
    obtain ⟨hk0, htl⟩ := hnd
    simp only [dictUpd]
    by_cases hk : k0 = k
    · rw [if_pos hk]
      simp only [dictKeys, List.map_cons, List.nodup_cons]
      exact ⟨hk0, htl⟩
    · rw [if_neg hk]
      simp only [dictKeys, List.map_cons, List.nodup_cons]
      refine ⟨?_, ih k htl⟩
      intro hmem
      rcases dictKeys_dictUpd_mem f dflt tl hmem with h | h
      · exact hk0 h
      · exact hk h

/-- The dict produced by one fastq-loop iteration is either unchanged or a
bio-then-fastq update of the old dict at a single key. -/
theorem process_fastq_dict_shape (disk : List String) (sid : String)
    (allFastqs : List FastqRec) (st : SelState) (bl : List BioRec) (fq : FastqRec) :
    (∃ e, process_fastq disk sid allFastqs st bl fq = .error e) ∨
    (∃ st' bl', process_fastq disk sid allFastqs st bl fq = .ok (st', bl') ∧
      (st'.dict = st.dict ∨
        ∃ u b p, st'.dict = dictSetFastq (dictSetBio st.dict u b) u p)) := by
  simp only [process_fastq]
  split
  · exact Or.inr ⟨st, bl, rfl, Or.inl rfl⟩
  split
  · exact Or.inr ⟨st, bl, rfl, Or.inl rfl⟩
  split
  · exact Or.inr ⟨_, bl, rfl, Or.inl rfl⟩
  · split
    · exact Or.inl ⟨_, rfl⟩
    · exact Or.inr ⟨_, _, rfl, Or.inr ⟨_, _, _, rfl⟩⟩
  · split
    · split
      · exact Or.inl ⟨_, rfl⟩
      · exact Or.inr ⟨_, _, rfl, Or.inr ⟨_, _, _, rfl⟩⟩
    · exact Or.inr ⟨st, bl, rfl, Or.inl rfl⟩

/-- One fastq-loop iteration keeps the dict keys duplicate-free. -/
theorem process_fastq_dict_nodup {disk : List String} {sid : String}
    {allFastqs : List FastqRec} {st : SelState} {bl : List BioRec} {fq : FastqRec}
    {st' : SelState} {bl' : List BioRec}
    (h : process_fastq disk sid allFastqs st bl fq = .ok (st', bl'))
    (hnd : (dictKeys st.dict).Nodup) : (dictKeys st'.dict).Nodup := by
  rcases process_fastq_dict_shape disk sid allFastqs st bl fq with ⟨e, he⟩ | ⟨st2, bl2, hok, hshape⟩
  · rw [he] at h
    cases h
  · rw [hok] at h
    injection h with h2
    injection h2 with ha hb
    subst ha
    rcases hshape with hsame | ⟨u, b, p, hupd⟩
    · rw [hsame]
      exact hnd
    · rw [hupd]
      simp only [dictSetFastq, dictSetBio]
      exact dictKeys_dictUpd_nodup _ _ _ _ (dictKeys_dictUpd_nodup _ _ _ _ hnd)

/-- The inner fastq loop keeps the dict keys duplicate-free. -/
theorem process_fastq_list_dict_nodup (disk : List String) (sid : String)
    (allFastqs : List FastqRec) :
    ∀ (fqs : List FastqRec) (st : SelState) (bl : List BioRec) (st' : SelState),
      process_fastq_list disk sid allFastqs st bl fqs = .ok st' →
      (dictKeys st.dict).Nodup → (dictKeys st'.dict).Nodup := by
  intro fqs
  induction fqs with
  | nil =>
    intro st bl st' h hnd
    injection h with h2
    subst h2
    exact hnd
  | cons fq rest ih =>
    intro st bl st' h hnd
    simp only [process_fastq_list] at h
    cases hpf : process_fastq disk sid allFastqs st bl fq with
    | error e =>
      rw [hpf] at h
      cases h
    | ok p =>
      obtain ⟨st2, bl2⟩ := p
      rw [hpf] at h
      exact ih st2 bl2 st' h (process_fastq_dict_nodup hpf hnd)

/-- One sample iteration keeps the dict keys duplicate-free. -/
theorem process_sample_dict_nodup {disk : List String} {st : SelState}
    {s : SampleData} {st' : SelState}
    (h : process_sample disk st s = .ok st') (hnd : (dictKeys st.dict).Nodup) :
    (dictKeys st'.dict).Nodup := by
  unfold process_sample at h
  split at h
  · injection h with h2
    subst h2
    exact hnd
  · exact process_fastq_list_dict_nodup disk s.cntn_id s.fastqs s.fastqs st s.bioinformatics st' h hnd

/-- The selection loop keeps the dict keys duplicate-free. -/
theorem process_samples_dict_nodup (disk : List String) :
    ∀ (ss : List SampleData) (st st' : SelState),
      process_samples disk st ss = .ok st' → (dictKeys st.dict).Nodup →
      (dictKeys st'.dict).Nodup := by
  intro ss
  induction ss with
  | nil =>
    intro st st' h hnd
    injection h with h2
    subst h2
    exact hnd
  | cons s rest ih =>
    intro st st' h hnd
    simp only [process_samples] at h
    cases hps : process_sample disk st s with
    | error e =>
      rw [hps] at h
      cases h
    | ok st2 =>
      rw [hps] at h
      exact ih st2 st' h (process_sample_dict_nodup hps hnd)

/-- The names the join loop collects are the thread names in list order,
whatever the finish times are. -/
theorem joinThreads_names (finish : String → Nat) :
    ∀ (now : Nat) (ts : List PipeThread),
      (joinThreads finish now ts).2 = ts.map PipeThread.name := by
  intro now ts
  induction ts generalizing now with
  | nil => rfl
  | cons t rest ih => simp [joinThreads, ih]

/-! Claim theorems. -/

/-- Concrete pass input for C1: the previously_analysed file already holds
the composite key S1_240101_FCA, while SLIMS still offers sample S1 with a
fastq of run tag 240101_FCA, no bioinformatics object, and an existing fastq
file. -/
def c1_env : PassEnv :=
  ⟨["S1_240101_FCA\n"], ["/d/a1.fastq.gz"],
   [⟨"S1", [⟨1, false, false, "240101_FCA", some (["/d/a1.fastq.gz"], 5)⟩], []⟩]⟩

/-- C1 counterexample: a composite key present in the Processed Ledger is
nevertheless included in the dispatch set and its Tracked State is claimed in
the same pass — `main` never calls `read_previous_samples_file`, so the
ledger is not consulted by the Selector. -/
theorem c1_counterexample :
    "S1_240101_FCA" ∈ read_previous_samples_file c1_env.previously_analysed_lines ∧
    "S1_240101_FCA" ∈ selectedKeys (select_candidates c1_env) ∧
    "S1_240101_FCA" ∈ claimedKeys (select_candidates c1_env) := by
  decide

/-- C1 (amended): the Eligibility Selector does not consult the Processed
Ledger at all — the dispatch set and the claims of a pass are independent of
the content of the previously_analysed file. -/
theorem c1_amended (env : PassEnv) (lines : List String) :
    select_candidates ⟨lines, env.disk, env.samples⟩ = select_candidates env := rfl

/-- The dispatched sample for the C2 counterexample: an update-claimed sample
(single-record handle, as src/wrapper.py:152 stores) whose external pipeline
process exits with code 1 and whose runner raises no exception. -/
def c2_sample : DispatchedSample :=
  ⟨"S1_240101_FCA", .single ⟨42, 1, [186], "running", "240101_FCA"⟩, [1], false⟩

/-- C2 counterexample: a job whose external process exits nonzero (exit code
1) is recorded as `complete`, not `failed` — `subprocess.call`'s return value
is discarded in `start_pipe_threads`, so the exit code never influences the
outcome (and the terminal state string is `complete`, not `completed`). -/
theorem c2_counterexample :
    c2_sample.exitCodes = [1] ∧
    start_runner_processes [c2_sample] =
      .finished ⟨["S1_240101_FCA"], [], [(42, "complete")]⟩ := by
  decide

/-- C2 (amended): in a completion order of update-claimed samples (every
stored handle a single record), a job is recorded `failed` exactly when its
runner process raises and `complete` otherwise, the exit codes of its
external pipeline processes never influence this (they are discarded), and
each such job is recorded regardless of its siblings' results; but a
create-claimed job (whole-list handle) is recorded neither way — its
recording write raises an AttributeError that aborts the loop, stranding the
outcomes completing after it. -/
theorem c2_amended (completionOrder : List DispatchedSample) (s : DispatchedSample)
    (codes : List Int) (bl : List BioRec) (rest : List DispatchedSample)
    (hall : ∀ u ∈ completionOrder, handleIsRecord u = true)
    (hs : s ∈ completionOrder) :
    (storedPk s, if runner_raises s then "failed" else "complete") ∈
      recWrites (start_runner_processes completionOrder) ∧
    (runner_raises s = false → s.sid ∈ recCompleted (start_runner_processes completionOrder)) ∧
    (runner_raises s = true → s.sid ∈ recFailed (start_runner_processes completionOrder)) ∧
    runner_raises ⟨s.sid, s.bioinfo, codes, s.auxError⟩ = runner_raises s ∧
    start_runner_processes (⟨s.sid, .wholeList bl, codes, s.auxError⟩ :: rest) =
      .crashed s.sid ⟨[], [], []⟩ := by
  have hchar := srp_fold_all_records completionOrder ⟨[], [], []⟩ hall
  refine ⟨?_, ?_, ?_, rfl, srp_fold_crash_head s.sid bl codes s.auxError rest ⟨[], [], []⟩⟩
  · simp only [start_runner_processes, hchar, recWrites, List.nil_append]
    exact List.mem_map_of_mem _ hs
  · intro hb
    simp only [start_runner_processes, hchar, recCompleted, List.nil_append]
    refine List.mem_map_of_mem _ (List.mem_filter.mpr ⟨hs, ?_⟩)
    simp [hb]
  · intro hb
    simp only [start_runner_processes, hchar, recFailed, List.nil_append]
    exact List.mem_map_of_mem _ (List.mem_filter.mpr ⟨hs, hb⟩)

/-- C2 amended, witnessed at the concrete nonzero-exit sample and a concrete
create-claimed crash. -/
theorem c2_amended_witness :
    ((42 : Nat), "complete") ∈ recWrites (start_runner_processes [c2_sample]) ∧
    (runner_raises c2_sample = false →
      c2_sample.sid ∈ recCompleted (start_runner_processes [c2_sample])) ∧
    (runner_raises c2_sample = true →
      c2_sample.sid ∈ recFailed (start_runner_processes [c2_sample])) ∧
    runner_raises ⟨c2_sample.sid, c2_sample.bioinfo, [7], c2_sample.auxError⟩ =
      runner_raises c2_sample ∧
    start_runner_processes (⟨c2_sample.sid, .wholeList [], [7], c2_sample.auxError⟩ :: []) =
      .crashed c2_sample.sid ⟨[], [], []⟩ := by
  exact c2_amended [c2_sample] c2_sample [7] [] [] (by decide) (by decide)

/-- The dispatched sample for the C3 counterexample: a successful
update-claimed job for composite key S1_240101_FCA. -/
def c3_sample : DispatchedSample :=
  ⟨"S1_240101_FCA", .single ⟨7, 1, [186], "running", "240101_FCA"⟩, [0], false⟩

/-- C3 counterexample: after recording a successful outcome (the terminal
state write to the RecordStore happened), the Processed Ledger still does not
contain the outcome's composite key — the recorder never appends to it. -/
theorem c3_counterexample :
    recWrites (start_runner_processes [c3_sample]) = [(7, "complete")] ∧
    "S1_240101_FCA" ∉ previously_analysed_after [] (start_runner_processes [c3_sample]) := by
  decide

/-- C3 (amended): the State Recorder performs no Processed Ledger append at
all — the previously_analysed file after a pass equals the file before it,
so in particular it never gains a key, whether or not the state write
succeeded; every RecordStore write the recorder does perform is a terminal
state (`complete` or `failed`); but for a create-claimed sample the
RecordStore write itself raises an AttributeError on the list-valued handle
and aborts the recording loop, leaving that outcome and every
later-completing outcome unwritten. -/
theorem c3_amended (lines : List String) (completionOrder : List DispatchedSample)
    (sid : String) (bl : List BioRec) (codes : List Int) (aux : Bool)
    (rest : List DispatchedSample) :
    previously_analysed_after lines (start_runner_processes completionOrder) = lines ∧
    (∀ w ∈ recWrites (start_runner_processes completionOrder),
      w.2 = "complete" ∨ w.2 = "failed") ∧
    start_runner_processes (⟨sid, .wholeList bl, codes, aux⟩ :: rest) =
      .crashed sid ⟨[], [], []⟩ := by
  refine ⟨rfl, ?_, srp_fold_crash_head sid bl codes aux rest ⟨[], [], []⟩⟩
  intro w hw
  rcases srp_fold_writes_terminal completionOrder ⟨[], [], []⟩ w hw with h | h
  · exact absurd h (List.not_mem_nil w)
  · exact h

/-- C3 amended, witnessed at the concrete successful sample and a concrete
create-claimed crash. -/
theorem c3_amended_witness :
    previously_analysed_after [] (start_runner_processes [c3_sample]) = [] ∧
    (((7 : Nat), "complete").2 = "complete" ∨ ((7 : Nat), "complete").2 = "failed") ∧
    start_runner_processes (⟨"S9_240101_FCZ", .wholeList [], [], false⟩ :: []) =
      .crashed "S9_240101_FCZ" ⟨[], [], []⟩ := by
  have h := c3_amended [] [c3_sample] "S9_240101_FCZ" [] [] false []
  exact ⟨h.1, h.2.1 (7, "complete") (by decide), h.2.2⟩

/-- C4: for any concurrency limit N > 0 and any submitted job list, every
state the Dispatcher's worker pool can reach has at most N jobs running
simultaneously, regardless of how many jobs were submitted. -/
theorem c4_concurrency_bound (N : Nat) (jobs : List String) (s : PoolState)
    (hN : 0 < N) (hs : PoolReachable N jobs s) :
    s.running.length ≤ N := by
  induction hs with
  | refl => simp [poolInit]
  | tail hreach hstep ih =>
    cases hstep with
    | start j pend run dn hlt => simpa using hlt
    | finish j pend run dn hj =>
      calc (run.erase j).length ≤ run.length := (List.erase_sublist j run).length_le
        _ ≤ N := ih

/-- C4, witnessed at limit 1 with one job started out of two submitted. -/
theorem c4_concurrency_bound_witness :
    (⟨["j2"], ["j1"], []⟩ : PoolState).running.length ≤ 1 :=
  c4_concurrency_bound 1 ["j1", "j2"] ⟨["j2"], ["j1"], []⟩ (by decide)
    (Relation.ReflTransGen.single (PoolStep.start "j1" ["j2"] [] [] (by decide)))

/-- C5 counterexample: stagger 10, two workers, job durations 50, 43, 5, 5.
The launches happen at times 0, 10, 50 and 53: the fourth launch occurs only
3 < 10 time units after the third, because both were queued behind busy
workers and start as soon as a slot frees — the `time.sleep(time_offset)` at
src/wrapper.py:49 delays only submissions, so there is no global gate on
launches. -/
theorem c5_counterexample :
    launchTimes 10 2 [50, 43, 5, 5] = [0, 10, 50, 53] ∧
    gapsOK 10 (launchTimes 10 2 [50, 43, 5, 5]) = false := by
  decide

/-- C5 (amended): the stagger applies to submissions, not launches — any two
distinct submissions are at least `offset` apart (the submission loop sleeps
`time_offset` after every submit), while a launch triggered by a freed worker
slot can follow the previous launch by less than the stagger interval. -/
theorem c5_amended (offset i j : Nat) (h : i < j) :
    submitTime offset i + offset ≤ submitTime offset j := by
  have hm : offset * (i + 1) ≤ offset * j := Nat.mul_le_mul_left offset h
  simpa [submitTime, Nat.mul_succ] using hm

/-- C5 amended, witnessed at the first two submissions with stagger 10. -/
theorem c5_amended_witness : submitTime 10 0 + 10 ≤ submitTime 10 1 :=
  c5_amended 10 0 1 (by decide)

/-- The C6 candidate whose fastq references a path that is missing on disk. -/
def c6_badSample : SampleData :=
  ⟨"S2", [⟨1, false, false, "240101_FCB", some (["/data/s2_r1.fastq.gz"], 3)⟩], []⟩

/-- A well-formed candidate following the bad one in the C6 pass. -/
def c6_goodSample : SampleData :=
  ⟨"S3", [⟨9, false, false, "240101_FCC", some (["/d/s3.fastq.gz"], 4)⟩], []⟩

/-- A candidate with zero fastq records. -/
def c6_emptySample : SampleData := ⟨"S4", [], []⟩

/-- Concrete pass input for C6: the bad candidate comes first, a well-formed
one after it; only the good candidate's file exists on disk. -/
def c6_env : PassEnv := ⟨[], ["/d/s3.fastq.gz"], [c6_badSample, c6_goodSample]⟩

/-- Concrete pass input whose only candidate has zero fastq records. -/
def c6_zero_env : PassEnv := ⟨[], [], [c6_emptySample]⟩

/-- C6 counterexample: a candidate with a missing input file is not excluded
with a logged error while the pass continues — the exception escapes `main`
and aborts the whole selection, so the following well-formed candidate is
never selected; and a candidate with zero input file groups is skipped with
nothing logged at all (the resulting state is still the initial one). -/
theorem c6_counterexample :
    select_candidates c6_env = .error (.missingFastq "/data/s2_r1.fastq.gz") ∧
    select_candidates c6_zero_env = .ok ⟨[], [], [], 0⟩ := by
  decide

/-- C6 (amended): a candidate with zero fastq records is skipped silently and
the pass continues with the remaining candidates, while a candidate whose
referenced input file is missing on disk aborts the entire selection with the
escaping exception, whatever candidates follow it. -/
theorem c6_amended :
    (∀ (disk : List String) (st : SelState) (s : SampleData) (rest : List SampleData),
      s.fastqs = [] → process_samples disk st (s :: rest) = process_samples disk st rest) ∧
    (∀ rest : List SampleData,
      process_samples c6_env.disk ⟨[], [], [], 0⟩ (c6_badSample :: rest) =
        .error (.missingFastq "/data/s2_r1.fastq.gz")) := by
  constructor
  · intro disk st s rest hf
    simp [process_samples, process_sample, hf]
  · intro rest
    have h : process_sample c6_env.disk ⟨[], [], [], 0⟩ c6_badSample =
        .error (.missingFastq "/data/s2_r1.fastq.gz") := by decide
    simp [process_samples, h]

/-- C6 amended, witnessed at the concrete zero-fastq and missing-file
candidates. -/
theorem c6_amended_witness :
    process_samples c6_env.disk ⟨[], [], [], 0⟩ [c6_emptySample] =
      process_samples c6_env.disk ⟨[], [], [], 0⟩ [] ∧
    process_samples c6_env.disk ⟨[], [], [], 0⟩ [c6_badSample] =
      .error (.missingFastq "/data/s2_r1.fastq.gz") :=
  ⟨c6_amended.1 c6_env.disk ⟨[], [], [], 0⟩ c6_emptySample [] rfl, c6_amended.2 []⟩

/-- The two fastq records for the C7 counterexample: distinct run tags
encoding the same date. -/
def c7_f1 : FastqRec := ⟨1, false, false, "240101_AAA", none⟩

/-- Second fastq record for the C7 counterexample. -/
def c7_f2 : FastqRec := ⟨2, false, false, "240101_BBB", none⟩

/-- C7 counterexample: two distinct run tags encode the same (maximal) date,
yet `find_runtag_from_fastqs` raises no error — it silently returns the
first of the two (the strictly-greater comparison at src/tools/slims.py:210
never replaces the running newest on a tie). -/
theorem c7_counterexample :
    runtag_date "240101_AAA" = runtag_date "240101_BBB" ∧
    "240101_AAA" ≠ "240101_BBB" ∧
    find_runtag_from_fastqs [c7_f1, c7_f2] = Except.ok "240101_AAA" := by
  decide

/-- C7 (amended): over a nonempty fastq list whose run tags all carry a
parseable date, run-tag resolution succeeds and returns one of the tags,
whose encoded date is maximal among them; in particular several distinct tags
sharing the maximal date are not a fatal error (the first of them is kept, as
the counterexample instance shows). -/
theorem c7_amended (fastq_objects : List FastqRec)
    (hne : fastq_objects ≠ [])
    (hall : ∀ t ∈ fastq_objects.map FastqRec.runTag, ∃ d, runtag_date t = some d) :
    ∃ r dr, find_runtag_from_fastqs fastq_objects = .ok r ∧
      r ∈ fastq_objects.map FastqRec.runTag ∧ runtag_date r = some dr ∧
      ∀ t ∈ fastq_objects.map FastqRec.runTag, ∀ d, runtag_date t = some d → d ≤ dr := by
  cases hobjs : fastq_objects.map FastqRec.runTag with
  | nil =>
    exact absurd (List.map_eq_nil_iff.mp hobjs) hne
  | cons t rest =>
    rw [hobjs] at hall
    obtain ⟨dt, hdt⟩ := hall t (List.mem_cons_self t rest)
    have hrest : ∀ u ∈ rest, ∃ d, runtag_date u = some d :=
      fun u hu => hall u (List.mem_cons_of_mem t hu)
    obtain ⟨r, dr, hok, hrd, hdtr, hmem, hbnd⟩ := runtag_fold_spec rest t dt hdt hrest
    refine ⟨r, dr, ?_, ?_, hrd, ?_⟩
    · simp only [find_runtag_from_fastqs]
      rw [hobjs, runtag_fold_cons_none t rest dt hdt]
      exact hok
    · rcases hmem with rfl | hm
      · exact List.mem_cons_self r rest
      · exact List.mem_cons_of_mem t hm
    · intro u hu d hd
      rcases List.mem_cons.mp hu with rfl | hm
      · rw [hdt] at hd
        injection hd with hdd
        omega
      · exact hbnd u hm d hd

/-- C7 amended, witnessed at the concrete tied tags: resolution succeeds. -/
theorem c7_amended_witness :
    (find_runtag_from_fastqs [c7_f1, c7_f2]).toOption.isSome = true := by
  obtain ⟨r, dr, hok, -, -, -⟩ := c7_amended [c7_f1, c7_f2] (by decide)
    (by
      intro t ht
      simp only [List.map, List.mem_cons, List.not_mem_nil, or_false] at ht
      rcases ht with rfl | rfl
      · exact ⟨20240101, rfl⟩
      · exact ⟨20240101, rfl⟩)
  rw [hok]
  rfl

/-- Concrete pass input for C8: one sample with two includable fastq records
sharing the run tag 240101_FCA and no existing bioinformatics objects. -/
def c8_env : PassEnv :=
  ⟨[], ["/d/a1.fastq.gz", "/d/a2.fastq.gz"],
   [⟨"S1", [⟨1, false, false, "240101_FCA", some (["/d/a1.fastq.gz"], 5)⟩,
            ⟨2, false, false, "240101_FCA", some (["/d/a2.fastq.gz"], 7)⟩], []⟩]⟩

/-- C8 counterexample: with two fastq records sharing one run tag, the pass
claims the Tracked State of the composite key S1_240101_FCA twice — one
fresh `running` bioinformatics record is created per fastq, because the
derived-object lookup is keyed by the fastq's own primary key — although the
dispatch dict still holds the key only once. -/
theorem c8_counterexample :
    (claimedKeys (select_candidates c8_env)).count "S1_240101_FCA" = 2 ∧
    (selectedKeys (select_candidates c8_env)).count "S1_240101_FCA" = 1 := by
  decide

/-- C8 (amended): within one pass each composite key is included as a
candidate at most once — the `rnaseq_samples` dict keys stay duplicate-free —
but the Tracked State of a key may be claimed more than once (once per
qualifying fastq record sharing the run tag, as the counterexample shows). -/
theorem c8_amended (env : PassEnv) (st : SelState)
    (h : select_candidates env = .ok st) :
    (st.dict.map Prod.fst).Nodup := by
  have hres := process_samples_dict_nodup env.disk env.samples ⟨[], [], [], 0⟩ st h
    (by simp [dictKeys])
  simpa [dictKeys] using hres

/-- C8 amended, witnessed at the concrete double-claim pass. -/
theorem c8_amended_witness :
    (((select_candidates c8_env).toOption.getD ⟨[], [], [], 0⟩).dict.map Prod.fst).Nodup :=
  c8_amended c8_env _ (by decide)

/-- A successful update-claimed sample for C9. -/
def c9_s1 : DispatchedSample :=
  ⟨"S1_240101_FCA", .single ⟨7, 1, [186], "running", "240101_FCA"⟩, [0], false⟩

/-- A failing update-claimed sample for C9. -/
def c9_s2 : DispatchedSample :=
  ⟨"S2_240101_FCB", .single ⟨8, 2, [186], "running", "240101_FCB"⟩, [0], true⟩

/-- A create-claimed sample for the C9 counterexample: its stored handle is
the whole bioinformatics list returned by `add_bioinformatics`. -/
def c9_createSample : DispatchedSample :=
  ⟨"S0_240101_FCC", .wholeList [⟨0, 3, [186], "running", "240101_FCC"⟩], [0], false⟩

/-- C9 counterexample: with a create-claimed sample completing first, its
recording write raises an AttributeError that aborts the `as_completed`
loop — neither its own outcome nor its sibling's is ever consumed, so the
outcome ids are not a permutation of the submitted ids and no state write is
performed for two submitted jobs. -/
theorem c9_counterexample :
    start_runner_processes [c9_createSample, c9_s1] =
      .crashed "S0_240101_FCC" ⟨[], [], []⟩ ∧
    ¬ (recCompleted (start_runner_processes [c9_createSample, c9_s1]) ++
        recFailed (start_runner_processes [c9_createSample, c9_s1])).Perm
          ([c9_createSample, c9_s1].map DispatchedSample.sid) ∧
    recWrites (start_runner_processes [c9_createSample, c9_s1]) = [] := by
  decide

/-- C9 (amended): when every dispatched sample's stored bioinformatics
handle is a single record (update-claimed), the recording loop consumes each
future exactly once over any completion order — the completed and failed id
lists together are a permutation of the submitted sample ids and exactly one
state write is performed per submitted job; a create-claimed sample instead
aborts the loop at its own recording step, so outcomes completing after it
are never consumed. -/
theorem c9_amended (samples completionOrder : List DispatchedSample)
    (sid : String) (bl : List BioRec) (codes : List Int) (aux : Bool)
    (rest : List DispatchedSample)
    (hall : ∀ u ∈ completionOrder, handleIsRecord u = true)
    (h : completionOrder.Perm samples) :
    (recCompleted (start_runner_processes completionOrder) ++
      recFailed (start_runner_processes completionOrder)).Perm
        (samples.map DispatchedSample.sid) ∧
    (recWrites (start_runner_processes completionOrder)).length = samples.length ∧
    start_runner_processes (⟨sid, .wholeList bl, codes, aux⟩ :: rest) =
      .crashed sid ⟨[], [], []⟩ := by
  have hchar := srp_fold_all_records completionOrder ⟨[], [], []⟩ hall
  refine ⟨?_, ?_, srp_fold_crash_head sid bl codes aux rest ⟨[], [], []⟩⟩
  · simp only [start_runner_processes, hchar, recCompleted, recFailed, List.nil_append]
    rw [← List.map_append]
    refine List.Perm.map _ (List.Perm.trans ?_ h)
    have hperm := List.filter_append_perm (fun s => !runner_raises s) completionOrder
    simpa [Bool.not_not] using hperm
  · simp only [start_runner_processes, hchar, recWrites, List.nil_append]
    simp [h.length_eq]

/-- C9 amended, witnessed with two update-claimed jobs completing in reverse
submission order and a concrete create-claimed crash. -/
theorem c9_amended_witness :
    (recCompleted (start_runner_processes [c9_s2, c9_s1]) ++
      recFailed (start_runner_processes [c9_s2, c9_s1])).Perm
        ([c9_s1, c9_s2].map DispatchedSample.sid) ∧
    (recWrites (start_runner_processes [c9_s2, c9_s1])).length = [c9_s1, c9_s2].length ∧
    start_runner_processes (⟨"S9_240101_FCZ", .wholeList [], [], true⟩ :: []) =
      .crashed "S9_240101_FCZ" ⟨[], [], []⟩ :=
  c9_amended [c9_s1, c9_s2] [c9_s2, c9_s1] "S9_240101_FCZ" [] [] true []
    (by decide) (by decide)

/-- C10: `start_pipe_threads` returns exactly the keys of the input dict, in
their insertion order, for every assignment of pipeline finish times — the
join loop follows submission order, not completion order — and the empty
dict yields the empty list. -/
theorem c10_names_in_order (sample_name : String) (pipe_dict : List (String × List String))
    (finish : String → Nat) :
    start_pipe_threads sample_name pipe_dict finish = pipe_dict.map Prod.fst := by
  simp [start_pipe_threads, joinThreads_names, List.map_map]

end QdWrap
